import Mathlib

/-!
Verification of the parameter- and crypto-material validation module
(app/boot_validate.py) of the PID issuer web service.

The module is embedded shallowly:

* Request arguments (werkzeug ImmutableMultiDict) become association lists
  of string pairs; `argsGet` models `args.get(k)` (first matching key) and
  a failed subscript access `args[k]` becomes an explicit KeyError value.
* The allow-list of certificate algorithms (a Python dict mapping an
  algorithm name to a collection of curve names) becomes an association
  list with first-match lookup, `dictGet`.
* External library calls (x509 parsing, PEM public-key loading, base64url
  decoding, URL validation) are parameters of the embedding, collected in
  an `Env` record: each theorem quantifies over their behaviour, and the
  witnesses instantiate them with small concrete functions.
* Functions that can raise uncaught Python exceptions return
  `Except PyExn`; exception message text is abstracted to the offending
  key or input.
-/

set_option autoImplicit false

namespace BootValidate

/-- Model of `args.get(m)` on a multi-dict: the value of the first pair
whose key matches, if any.  A present key always has a string value, so
`none` means exactly "key absent" (an empty-string value is `some ""`,
hence present). -/
def argsGet (args : List (String × String)) (k : String) : Option String :=
  match args with
  | [] => none
  | (a, v) :: rest => if a = k then some v else argsGet rest k

/-- Model of a Python dict lookup `d[k]` / `k in d` for the allow-list:
first pair whose key matches. -/
def dictGet (d : List (String × List String)) (k : String) : Option (List String) :=
  match d with
  | [] => none
  | (a, v) :: rest => if a = k then some v else dictGet rest k

/-- `validate_mandatory_args(args, mandlist)` from boot_validate.py:
fold over `mandlist`, flipping the flag to `false` and appending the name
to the missing list whenever `args.get(m)` is `None`. -/
def validate_mandatory_args (args : List (String × String))
    (mandlist : List String) : Bool × List String :=
  mandlist.foldl
    (fun bl m =>
      match argsGet args m with
      | none => (false, bl.2 ++ [m])
      | some _ => bl)
    (true, [])

/-- `validate_cert_algo(certificate, lalgo)` from boot_validate.py.
The x509 PEM parse (library call) is the parameter `parse`: it either
yields the pair of the signature-algorithm name
(`cert.signature_algorithm_oid._name`) and the public-key curve name
(`cert.public_key().curve.name`), or fails with an exception message.
On parse failure the function returns `(False, str(e), "unknown")`;
otherwise it checks membership of the algorithm among the allow-list
keys and of the curve in that algorithm's own curve list. -/
def validate_cert_algo (parse : List Nat → Except String (String × String))
    (certificate : List Nat) (lalgo : List (String × List String)) :
    Bool × String × String :=
  match parse certificate with
  | .error e => (false, e, "unknown")
  | .ok (algname, curvname) =>
    match dictGet lalgo algname with
    | none => (false, algname, curvname)
    | some curves =>
      if curvname ∈ curves then (true, algname, curvname)
      else (false, algname, curvname)

/-!
Symbolic model of the hybrid-encryption round trip verified by
`validate_getpidtest_result`.  The AES-256-GCM layer (pycryptodome) and
the ECDH/KDF layer (`crypto_func.py`: `encrypt_ECC`, `decrypt_ECC`,
`ecc_point_to_256_bit_key`) are collaborators outside this module.  A
named elliptic curve is modelled as the cyclic group generated by its
base point: a point is identified with its discrete logarithm, a residue
modulo the group order, and scalar multiplication is multiplication
modulo that order.  AES-GCM is modelled symbolically: a ciphertext is a
term recording the key, nonce and plaintext that built it, and the
authentication tag is a term recording the key, nonce and ciphertext it
authenticates; `decrypt_and_verify` recomputes the tag, fails on
mismatch, and only then releases the plaintext. -/

/-- Symbolic AES-GCM ciphertext: the term built by encrypting `pt` under
`key` with IV `nonce`. -/
structure GcmCiphertext where
  key : Nat
  nonce : Nat
  pt : List Nat
deriving DecidableEq

/-- Symbolic AES-GCM authentication tag over a ciphertext. -/
structure GcmTag where
  key : Nat
  nonce : Nat
  ct : GcmCiphertext
deriving DecidableEq

/-- Symbolic `AES.new(key, MODE_GCM, nonce)` + `encrypt_and_digest`. -/
def encrypt_AES_GCM (msg : List Nat) (secretKey nonce : Nat) :
    GcmCiphertext × GcmTag :=
  let ct : GcmCiphertext := ⟨secretKey, nonce, msg⟩
  (ct, ⟨secretKey, nonce, ct⟩)

/-- Symbolic `decrypt_and_verify`: recompute the tag under the supplied
key and nonce; on mismatch authenticated decryption fails (pycryptodome
raises ValueError, modelled as `none`), otherwise release the plaintext. -/
def decrypt_AES_GCM (ciphertext : GcmCiphertext) (nonce : Nat)
    (authTag : GcmTag) (secretKey : Nat) : Option (List Nat) :=
  if authTag = ⟨secretKey, nonce, ciphertext⟩ then some ciphertext.pt else none

/-- A named curve, reduced to the order of the group generated by its
base point; a point is its discrete logarithm modulo `n`, the base point
itself being `1`. -/
structure Curve where
  n : Nat
deriving DecidableEq

/-- Scalar multiplication `k * P` in the cyclic-group model. -/
def scalarMult (c : Curve) (k p : Nat) : Nat := k * p % c.n

/-- Modelled from the spec: `crypto_func.ecc_point_to_256_bit_key` is not
under src/; the spec treats the key-derivation step as an external,
algorithm-specific collaborator, so the shared point is taken as the
derived symmetric key directly. -/
def ecc_point_to_256_bit_key (p : Nat) : Nat := p

/-- Modelled from the spec: `crypto_func.decrypt_ECC` is not under src/.
Per the spec it performs ECDH (shared point = private scalar times the
ephemeral public point), derives the symmetric key, and runs
authenticated decryption, returning either the plaintext bytes or a
decryption failure. -/
def decrypt_ECC (c : Curve) (encryptedMsg : GcmCiphertext) (nonce : Nat)
    (authTag : GcmTag) (ciphertextPubKey : Nat) (privKey : Nat) :
    Option (List Nat) :=
  let sharedECCKey := scalarMult c privKey ciphertextPubKey
  let secretKey := ecc_point_to_256_bit_key sharedECCKey
  decrypt_AES_GCM encryptedMsg nonce authTag secretKey

/-- Modelled from the spec: `crypto_func.encrypt_ECC` (the round-trip
counterpart used by /pid/getpidtest) is not under src/.  It draws an
ephemeral private scalar, derives the shared point against the
recipient public key, encrypts under the derived key and returns the
ciphertext, tag and ephemeral public point. -/
def encrypt_ECC (c : Curve) (msg : List Nat) (pubKey : Nat)
    (ephPriv nonce : Nat) : GcmCiphertext × GcmTag × Nat :=
  let sharedECCKey := scalarMult c ephPriv pubKey
  let secretKey := ecc_point_to_256_bit_key sharedECCKey
  let ctTag := encrypt_AES_GCM msg secretKey nonce
  (ctTag.1, ctTag.2, scalarMult c ephPriv 1)

/-- The public point of a private scalar (`priv * G`, with `G = 1`). -/
def pubOf (c : Curve) (priv : Nat) : Nat := scalarMult c priv 1

/-- `validate_getpidtest_result` from boot_validate.py: rebuild the
ephemeral public key as a curve point, call `decrypt_ECC` with the
private scalar, and compare the decoded plaintext with the expected
one.  The propagation of a decryption failure to a `False` result is
modelled from the spec (the failure variant of the collaborator
`decrypt_ECC` is not re-checked, it makes the verifier return false). -/
def validate_getpidtest_result (c : Curve) (ciphertext : GcmCiphertext)
    (nonce : Nat) (authTag : GcmTag) (ciphertextPubKey : Nat)
    (plaintext : List Nat) (privatekey : Nat) : Bool :=
  match decrypt_ECC c ciphertext nonce authTag ciphertextPubKey privatekey with
  | some decryptedMsg => decryptedMsg == plaintext
  | none => false

/-- `is_valid_pem_public_key(pem_key)` from boot_validate.py: attempt to
load the bytes as a PEM public key (library call, the parameter `load`);
any exception is caught and turned into `false`, success into `true`. -/
def is_valid_pem_public_key (load : List Nat → Except String Unit)
    (pem_key : List Nat) : Bool :=
  match load pem_key with
  | .ok _ => true
  | .error _ => false

/-- Uncaught Python exceptions escaping a validator. -/
inductive PyExn where
  | keyError (k : String)
  | valueError (s : String)
  | binasciiError (s : String)
deriving DecidableEq

/-- Outcome of the getpid/getmdl validator: a local HTTP error (numeric
code from the configured error list, HTTP status), a redirect directive
built by `redirect_getpid_or_mdl(version, url, code, extra)`, or the
sentinel `True`. -/
inductive GetpidOutcome where
  | httpError (errcode : Nat) (status : Nat)
  | redirect (version : String) (url : String) (code : Nat)
      (extra : List (String × String))
  | valid
deriving DecidableEq

/-- External collaborators and configuration consumed by the
orchestrators: `validators.url`, `urlparse(...).scheme`,
`base64.urlsafe_b64decode`, the x509 certificate parse, the PEM
public-key load, the configured algorithm allow-list, the supported
country codes and the protocol version held in the session. -/
structure Env where
  validators_url : String → Bool
  urlparse_scheme : String → String
  b64decode : String → Except String (List Nat)
  certParse : List Nat → Except String (String × String)
  load_pem_public_key : List Nat → Except String Unit
  cert_algo_list : List (String × List String)
  supported_countries : List String
  version : String

/-- Final step of the getpid/getmdl validator (lines 177-183): when
device_publickey is not among the missing names, base64url-decode it
(outside any try, so a decode error escapes) and reject with local
error 16 when it is not a well-formed PEM public key; otherwise the
arguments are valid. -/
def getpid_step_pubkey (env : Env) (args : List (String × String))
    (l : List String) : Except PyExn GetpidOutcome :=
  if "device_publickey" ∈ l then .ok .valid
  else
    match argsGet args "device_publickey" with
    | none => .error (.keyError "device_publickey")
    | some dpk =>
      match env.b64decode dpk with
      | .error e => .error (.binasciiError e)
      | .ok device_pub =>
        if is_valid_pem_public_key env.load_pem_public_key device_pub = false then
          .ok (.httpError 16 400)
        else .ok .valid

/-- Certificate steps of the getpid/getmdl validator (lines 166-176):
base64url-decode the certificate argument inside a try whose handler
redirects with code 103 (a missing key raises inside the same try, so
it also lands on 103), then check algorithm and curve against the
allow-list, redirecting with code 104 and a diagnostic naming both on
failure. -/
def getpid_step_cert (env : Env) (args : List (String × String))
    (l : List String) (url : String) : Except PyExn GetpidOutcome :=
  match argsGet args "certificate" with
  | none =>
    .ok (.redirect env.version url 103
      [("error_str", "Certificate not correctly encoded - KeyError: certificate")])
  | some certArg =>
    match env.b64decode certArg with
    | .error e =>
      .ok (.redirect env.version url 103
        [("error_str", "Certificate not correctly encoded - " ++ e)])
    | .ok certificate =>
      match validate_cert_algo env.certParse certificate env.cert_algo_list with
      | (v, algo, curve) =>
        if v = false then
          .ok (.redirect env.version url 104
            [("error_str", "Certificate algorithm (" ++ algo ++ ") or curve ("
              ++ curve ++ ") not supported.")])
        else getpid_step_pubkey env args l

/-- Missing-mandatory step (lines 162-165): when the flag from the
broad mandatory check is false, redirect with code 101. -/
def getpid_step_missing (env : Env) (args : List (String × String))
    (b : Bool) (l : List String) (url : String) : Except PyExn GetpidOutcome :=
  if b = false then .ok (.redirect env.version url 101 [])
  else getpid_step_cert env args l url

/-- Country step (lines 158-161): when country is not among the missing
names, read it (a missing key raises) and redirect with code 102 when
it is not a supported country code. -/
def getpid_step_country (env : Env) (args : List (String × String))
    (b : Bool) (l : List String) (url : String) : Except PyExn GetpidOutcome :=
  if "country" ∈ l then getpid_step_missing env args b l url
  else
    match argsGet args "country" with
    | none => .error (.keyError "country")
    | some ctry =>
      if ctry ∈ env.supported_countries then getpid_step_missing env args b l url
      else .ok (.redirect env.version url 102 [])

/-- `validate_params_getpid_or_mdl(args, list)` from boot_validate.py:
run the broad mandatory check, then in order reject a missing
device_publickey with local error 15, record it into the session (an
absent key raises there), reject a missing returnURL with local error
11, record it, reject a returnURL with no scheme that also fails
`validators.url` with local error 14, and continue with the country,
missing-mandatory, certificate and public-key steps. -/
def validate_params_getpid_or_mdl (env : Env) (args : List (String × String))
    (mandlist : List String) : Except PyExn GetpidOutcome :=
  if "device_publickey" ∈ (validate_mandatory_args args mandlist).2 then
    .ok (.httpError 15 400)
  else
    match argsGet args "device_publickey" with
    | none => .error (.keyError "device_publickey")
    | some _ =>
      if "returnURL" ∈ (validate_mandatory_args args mandlist).2 then
        .ok (.httpError 11 400)
      else
        match argsGet args "returnURL" with
        | none => .error (.keyError "returnURL")
        | some url =>
          if env.validators_url url = false ∧ env.urlparse_scheme url = "" then
            .ok (.httpError 14 400)
          else getpid_step_country env args (validate_mandatory_args args mandlist).1
                 (validate_mandatory_args args mandlist).2 url

/-- The final step of the getpid/getmdl validator with the guard
`not device_publickey in l` (line 177) removed: the public-key format
check runs unconditionally. -/
def getpid_step_pubkey_unguarded (env : Env) (args : List (String × String)) :
    Except PyExn GetpidOutcome :=
  match argsGet args "device_publickey" with
  | none => .error (.keyError "device_publickey")
  | some dpk =>
    match env.b64decode dpk with
    | .error e => .error (.binasciiError e)
    | .ok device_pub =>
      if is_valid_pem_public_key env.load_pem_public_key device_pub = false then
        .ok (.httpError 16 400)
      else .ok .valid

/-- Certificate steps, continuing into the unguarded final step. -/
def getpid_step_cert_unguarded (env : Env) (args : List (String × String))
    (url : String) : Except PyExn GetpidOutcome :=
  match argsGet args "certificate" with
  | none =>
    .ok (.redirect env.version url 103
      [("error_str", "Certificate not correctly encoded - KeyError: certificate")])
  | some certArg =>
    match env.b64decode certArg with
    | .error e =>
      .ok (.redirect env.version url 103
        [("error_str", "Certificate not correctly encoded - " ++ e)])
    | .ok certificate =>
      match validate_cert_algo env.certParse certificate env.cert_algo_list with
      | (v, algo, curve) =>
        if v = false then
          .ok (.redirect env.version url 104
            [("error_str", "Certificate algorithm (" ++ algo ++ ") or curve ("
              ++ curve ++ ") not supported.")])
        else getpid_step_pubkey_unguarded env args

/-- Missing-mandatory step, continuing into the unguarded chain. -/
def getpid_step_missing_unguarded (env : Env) (args : List (String × String))
    (b : Bool) (url : String) : Except PyExn GetpidOutcome :=
  if b = false then .ok (.redirect env.version url 101 [])
  else getpid_step_cert_unguarded env args url

/-- Country step, continuing into the unguarded chain. -/
def getpid_step_country_unguarded (env : Env) (args : List (String × String))
    (b : Bool) (l : List String) (url : String) : Except PyExn GetpidOutcome :=
  if "country" ∈ l then getpid_step_missing_unguarded env args b url
  else
    match argsGet args "country" with
    | none => .error (.keyError "country")
    | some ctry =>
      if ctry ∈ env.supported_countries then
        getpid_step_missing_unguarded env args b url
      else .ok (.redirect env.version url 102 [])

/-- The getpid/getmdl validator with the line-177 guard removed. -/
def validate_params_getpid_or_mdl_unguarded (env : Env)
    (args : List (String × String)) (mandlist : List String) :
    Except PyExn GetpidOutcome :=
  if "device_publickey" ∈ (validate_mandatory_args args mandlist).2 then
    .ok (.httpError 15 400)
  else
    match argsGet args "device_publickey" with
    | none => .error (.keyError "device_publickey")
    | some _ =>
      if "returnURL" ∈ (validate_mandatory_args args mandlist).2 then
        .ok (.httpError 11 400)
      else
        match argsGet args "returnURL" with
        | none => .error (.keyError "returnURL")
        | some url =>
          if env.validators_url url = false ∧ env.urlparse_scheme url = "" then
            .ok (.httpError 14 400)
          else getpid_step_country_unguarded env args
                 (validate_mandatory_args args mandlist).1
                 (validate_mandatory_args args mandlist).2 url

/-- Outcome of the show validator: a local HTTP response or the
sentinel `True`.  `errorInfo` carries the raw error string, the
error_str text and the 203 status of the non-authoritative branch. -/
inductive ShowOutcome where
  | httpError (errcode : Nat) (status : Nat)
  | errorInfo (err : String) (errStr : String) (status : Nat)
  | valid
deriving DecidableEq

/-- Digit-string parser underlying the model of Python `int(...)`: a
non-empty all-digit character list denotes its decimal value. -/
def parseDigits (l : List Char) : Option Nat :=
  if l ≠ [] ∧ l.all Char.isDigit then
    some (l.foldl (fun acc c => acc * 10 + (c.toNat - 48)) 0)
  else none

/-- Model of the Python `int(...)` constructor on strings: surrounding
whitespace is ignored, an optional sign precedes the digits, anything
else raises ValueError (modelled as `none`). -/
def python_int (s : String) : Option Int :=
  let t := ((s.toList.dropWhile Char.isWhitespace).reverse.dropWhile
    Char.isWhitespace).reverse
  match t with
  | [] => none
  | c :: rest =>
    if c = '-' then (parseDigits rest).map (fun n => -(n : Int))
    else if c = '+' then (parseDigits rest).map (fun n => (n : Int))
    else (parseDigits t).map (fun n => (n : Int))

/-- `validate_params_showpid_or_mdl(args, list)` from boot_validate.py:
respond 206 with error 101 when a mandatory field (or the error field)
is missing; otherwise parse the error value as an integer (raising on a
malformed value), and when non-zero respond 203 with the error number
and the error_str value (raising when that key is absent); otherwise
the arguments are valid. -/
def validate_params_showpid_or_mdl (args : List (String × String))
    (mandlist : List String) : Except PyExn ShowOutcome :=
  if (validate_mandatory_args args mandlist).1 = false
      ∨ "error" ∈ (validate_mandatory_args args mandlist).2 then
    .ok (.httpError 101 206)
  else
    match argsGet args "error" with
    | none => .error (.keyError "error")
    | some errv =>
      match python_int errv with
      | none => .error (.valueError errv)
      | some n =>
        if n ≠ 0 then
          match argsGet args "error_str" with
          | none => .error (.keyError "error_str")
          | some es => .ok (.errorInfo errv es 203)
        else .ok .valid

/-- A small concrete environment used to exercise the orchestrators:
one good certificate blob [1] (allowed algorithm and curve), one blob
[2] whose curve belongs to a different algorithm of the allow-list, one
well-formed PEM public key [9], and a single well-formed return URL. -/
def env0 : Env where
  validators_url := fun s => s == "https://wallet.example.org/cb"
  urlparse_scheme := fun s =>
    if s == "https://wallet.example.org/cb" then "https" else ""
  b64decode := fun s =>
    if s == "certok" then .ok [1]
    else if s == "certbad" then .ok [2]
    else if s == "pubok" then .ok [9]
    else if s == "pubbad" then .ok [8]
    else .error "Incorrect padding"
  certParse := fun bs =>
    if bs = [1] then .ok ("ecdsa-with-SHA256", "secp256r1")
    else if bs = [2] then .ok ("ecdsa-with-SHA256", "secp521r1")
    else .error "Unable to load PEM file."
  load_pem_public_key := fun bs =>
    if bs = [9] then .ok () else .error "Could not deserialize key data."
  cert_algo_list :=
    [("ecdsa-with-SHA256", ["secp256r1"]), ("ecdsa-with-SHA384", ["secp521r1"])]
  supported_countries := ["PT", "EE"]
  version := "0.3"

theorem argsGet_nil (k : String) : argsGet [] k = none := rfl

theorem argsGet_cons (a v : String) (rest : List (String × String)) (k : String) :
    argsGet ((a, v) :: rest) k = if a = k then some v else argsGet rest k := rfl

/-- The fold underlying `validate_mandatory_args`, relative to an arbitrary
accumulator: the flag is the conjunction of the incoming flag with
presence of every listed name, and the missing list is the incoming list
followed by the absent names in order (duplicates kept). -/
theorem validate_mandatory_args_foldl (args : List (String × String)) :
    ∀ (mandlist : List String) (b0 : Bool) (l0 : List String),
      mandlist.foldl
        (fun bl m =>
          match argsGet args m with
          | none => (false, bl.2 ++ [m])
          | some _ => bl)
        (b0, l0)
      = (b0 && mandlist.all (fun m => (argsGet args m).isSome),
         l0 ++ mandlist.filter (fun m => (argsGet args m).isNone)) := by
  intro mandlist
  induction mandlist with
  | nil => intro b0 l0; simp
  | cons m rest ih =>
    intro b0 l0
    simp only [List.foldl_cons, List.all_cons, List.filter_cons]
    cases h : argsGet args m with
    | none => simp [h, ih]
    | some v => simp [h, ih]

/-- Closed-form characterisation of `validate_mandatory_args`. -/
theorem validate_mandatory_args_spec (args : List (String × String))
    (mandlist : List String) :
    validate_mandatory_args args mandlist
      = (mandlist.all (fun m => (argsGet args m).isSome),
         mandlist.filter (fun m => (argsGet args m).isNone)) := by
  unfold validate_mandatory_args
  simpa using validate_mandatory_args_foldl args mandlist true []

/-- A name in the missing list is absent from the arguments. -/
theorem mem_missing_absent (args : List (String × String))
    (mandlist : List String) (m : String)
    (hm : m ∈ (validate_mandatory_args args mandlist).2) :
    argsGet args m = none := by
  rw [validate_mandatory_args_spec] at hm
  simp only [List.mem_filter, Option.isNone_iff_eq_none, decide_eq_true_eq] at hm
  exact hm.2

/-- A name with a value in the arguments is never in the missing list. -/
theorem present_not_mem_missing (args : List (String × String))
    (mandlist : List String) (m : String) (v : String)
    (hv : argsGet args m = some v) :
    m ∉ (validate_mandatory_args args mandlist).2 := by
  intro hm
  rw [mem_missing_absent args mandlist m hm] at hv
  exact Option.noConfusion hv

/-- If the flag is true, the missing list is empty. -/
theorem flag_true_missing_nil (args : List (String × String))
    (mandlist : List String)
    (hb : (validate_mandatory_args args mandlist).1 = true) :
    (validate_mandatory_args args mandlist).2 = [] := by
  rw [validate_mandatory_args_spec] at hb ⊢
  simp only [List.all_eq_true] at hb
  simp only [List.filter_eq_nil_iff]
  intro m hm
  have := hb m hm
  simp only [Option.isNone_iff_eq_none, decide_eq_true_eq]
  intro hnone
  rw [hnone] at this
  simp at this

/-!  Theorems for the spec claims.  -/

/-- C3: validate_mandatory_args returns (true, []) iff every listed name
has a non-null value in args (an empty-string value counts as present);
otherwise it returns (false, missing) where missing is exactly the list
of absent names in input order, a duplicated absent name appearing once
per occurrence; and the flag is false exactly when some listed name is
absent. -/
theorem validate_mandatory_args_correct (args : List (String × String))
    (mandlist : List String) :
    (validate_mandatory_args args mandlist = (true, [])
      ↔ ∀ m ∈ mandlist, (argsGet args m).isSome = true)
    ∧ (validate_mandatory_args args mandlist).2
        = mandlist.filter (fun m => (argsGet args m).isNone)
    ∧ ((validate_mandatory_args args mandlist).1 = false
        ↔ ∃ m ∈ mandlist, argsGet args m = none)
    ∧ (∀ m ∈ mandlist, argsGet args m = some ""
        → m ∉ (validate_mandatory_args args mandlist).2) := by
  rw [validate_mandatory_args_spec]
  refine ⟨?_, rfl, ?_, ?_⟩
  · constructor
    · intro h m hm
      have h1 := congrArg Prod.fst h
      simp only [List.all_eq_true] at h1
      exact h1 m hm
    · intro h
      refine Prod.ext ?_ ?_
      · simp only [List.all_eq_true]
        exact fun m hm => h m hm
      · simp only [List.filter_eq_nil_iff]
        intro m hm
        have := h m hm
        simp only [Option.isNone_iff_eq_none, decide_eq_true_eq]
        intro hnone
        rw [hnone] at this
        simp at this
  · constructor
    · intro h
      by_contra hcon
      push_neg at hcon
      have hall : mandlist.all (fun m => (argsGet args m).isSome) = true := by
        rw [List.all_eq_true]
        intro m hm
        cases hget : argsGet args m with
        | none => exact absurd hget (hcon m hm)
        | some v => simp
      rw [hall] at h
      exact absurd h (by simp)
    · rintro ⟨m, hm, hnone⟩
      cases hall : mandlist.all (fun m => (argsGet args m).isSome) with
      | false => rfl
      | true =>
        have := List.all_eq_true.mp hall m hm
        rw [hnone] at this
        simp at this
  · intro m _ hsome
    simp only [List.mem_filter, Option.isNone_iff_eq_none, decide_eq_true_eq,
      not_and]
    intro _
    rw [hsome]
    simp

/-- Witness for C3 at concrete inputs: the key a is present with an
empty-string value hence not missing, and the doubly listed absent name
x is reported once per occurrence, in order. -/
theorem validate_mandatory_args_correct_witness :
    (validate_mandatory_args [("a", ""), ("b", "1")] ["x", "a", "x"] = (true, [])
      ↔ ∀ m ∈ ["x", "a", "x"], (argsGet [("a", ""), ("b", "1")] m).isSome = true)
    ∧ (validate_mandatory_args [("a", ""), ("b", "1")] ["x", "a", "x"]).2
        = ["x", "a", "x"].filter
            (fun m => (argsGet [("a", ""), ("b", "1")] m).isNone)
    ∧ ((validate_mandatory_args [("a", ""), ("b", "1")] ["x", "a", "x"]).1 = false
        ↔ ∃ m ∈ ["x", "a", "x"], argsGet [("a", ""), ("b", "1")] m = none)
    ∧ (∀ m ∈ ["x", "a", "x"], argsGet [("a", ""), ("b", "1")] m = some ""
        → m ∉ (validate_mandatory_args [("a", ""), ("b", "1")] ["x", "a", "x"]).2) :=
  validate_mandatory_args_correct [("a", ""), ("b", "1")] ["x", "a", "x"]

/-- C2: on a certificate that parses to algorithm a and curve cv,
validate_cert_algo always reports the pair (a, cv), and its flag is true
exactly when a is a key of the allow-list and cv belongs to the curve
list of that very key — so an algorithm absent from the allow-list is
rejected, and a curve outside the set of its own algorithm is rejected
even when some other algorithm lists that curve. -/
theorem validate_cert_algo_allowlist
    (parse : List Nat → Except String (String × String))
    (certificate : List Nat) (lalgo : List (String × List String))
    (a cv : String) (hparse : parse certificate = .ok (a, cv)) :
    (validate_cert_algo parse certificate lalgo).2.1 = a
    ∧ (validate_cert_algo parse certificate lalgo).2.2 = cv
    ∧ ((validate_cert_algo parse certificate lalgo).1 = true
        ↔ ∃ curves, dictGet lalgo a = some curves ∧ cv ∈ curves) := by
  unfold validate_cert_algo
  rw [hparse]
  cases hd : dictGet lalgo a with
  | none => simp [hd]
  | some curves =>
    by_cases hc : cv ∈ curves
    · simp [hd, hc]
    · simp [hd, hc]

/-- Witness for C2: the certificate parses to (algA, curve2); curve2 is
allowed for algB but not for algA, so the flag is false while the pair
is still reported. -/
theorem validate_cert_algo_allowlist_witness :
    (validate_cert_algo (fun _ => .ok ("algA", "curve2")) [0]
        [("algA", ["curve1"]), ("algB", ["curve2"])]).2.1 = "algA"
    ∧ (validate_cert_algo (fun _ => .ok ("algA", "curve2")) [0]
        [("algA", ["curve1"]), ("algB", ["curve2"])]).2.2 = "curve2"
    ∧ ((validate_cert_algo (fun _ => .ok ("algA", "curve2")) [0]
        [("algA", ["curve1"]), ("algB", ["curve2"])]).1 = true
        ↔ ∃ curves,
            dictGet [("algA", ["curve1"]), ("algB", ["curve2"])] "algA"
              = some curves ∧ "curve2" ∈ curves) :=
  validate_cert_algo_allowlist (fun _ => .ok ("algA", "curve2")) [0]
    [("algA", ["curve1"]), ("algB", ["curve2"])] "algA" "curve2" rfl

/-- C6: on a byte string whose x509 parse fails with message e,
validate_cert_algo returns (false, e, unknown), the message riding in
the algorithm field, and no exception escapes (the embedding is a total
function). -/
theorem validate_cert_algo_parse_failure
    (parse : List Nat → Except String (String × String))
    (certificate : List Nat) (lalgo : List (String × List String))
    (e : String) (hparse : parse certificate = .error e) :
    validate_cert_algo parse certificate lalgo = (false, e, "unknown") := by
  unfold validate_cert_algo
  rw [hparse]

/-- Witness for C6: a parse function failing on the empty byte string. -/
theorem validate_cert_algo_parse_failure_witness :
    validate_cert_algo (fun _ => .error "Unable to load PEM file.") []
      [("ecdsa-with-SHA256", ["secp256r1"])]
      = (false, "Unable to load PEM file.", "unknown") :=
  validate_cert_algo_parse_failure (fun _ => .error "Unable to load PEM file.")
    [] [("ecdsa-with-SHA256", ["secp256r1"])] "Unable to load PEM file." rfl

/-- C7: is_valid_pem_public_key returns true exactly when the library
load of the bytes succeeds, and returns false — never raising, the
embedding being total — whenever the load fails with any exception,
which covers empty bytes, truncated PEM and PEM blocks of the wrong
type such as private-key material. -/
theorem is_valid_pem_public_key_correct
    (load : List Nat → Except String Unit) (key_bytes : List Nat) :
    (is_valid_pem_public_key load key_bytes = true ↔ load key_bytes = .ok ())
    ∧ (∀ e, load key_bytes = .error e
        → is_valid_pem_public_key load key_bytes = false) := by
  unfold is_valid_pem_public_key
  cases h : load key_bytes with
  | ok u => cases u; simp
  | error e => simp

/-- Witness for C7: a load function that fails on the empty byte string
(no PEM data found) and succeeds on the one-byte key; the validator
returns false and true respectively. -/
theorem is_valid_pem_public_key_correct_witness :
    ((is_valid_pem_public_key
        (fun bs => if bs = [] then .error "Unable to load PEM file." else .ok ())
        [] = true
      ↔ (fun (bs : List Nat) =>
          if bs = [] then (.error "Unable to load PEM file." : Except String Unit)
          else .ok ()) [] = .ok ())
    ∧ (∀ e, (fun (bs : List Nat) =>
          if bs = [] then (.error "Unable to load PEM file." : Except String Unit)
          else .ok ()) [] = .error e
        → is_valid_pem_public_key
            (fun bs => if bs = [] then .error "Unable to load PEM file." else .ok ())
            [] = false)) :=
  is_valid_pem_public_key_correct
    (fun bs => if bs = [] then .error "Unable to load PEM file." else .ok ()) []

/-- Multiplying by a residue is the same as multiplying by the number,
modulo the curve order. -/
theorem mul_mod_mod (c : Curve) (a b : Nat) :
    a * (b % c.n) % c.n = a * b % c.n := by
  conv_rhs => rw [Nat.mul_mod]
  rw [Nat.mul_mod, Nat.mod_mod_of_dvd b dvd_rfl]

/-- The two sides of the ECDH agreement derive the same shared point:
the encryptor multiplies the recipient public point by the ephemeral
scalar, the decryptor multiplies the ephemeral public point by the
recipient scalar. -/
theorem ecdh_agree (c : Curve) (d k : Nat) :
    scalarMult c d (scalarMult c k 1) = scalarMult c k (scalarMult c d 1) := by
  unfold scalarMult
  rw [Nat.mul_one, Nat.mul_one, mul_mod_mod, mul_mod_mod, Nat.mul_comm]

/-- C1: validate_getpidtest_result is a total boolean verifier: it
returns true exactly when the authenticated hybrid decryption succeeds
and the decoded plaintext equals the expected one; on a ciphertext
produced by encrypt_ECC under the public key of d it returns true with
the private key d, returns false — rather than raising — with any
private key d2 not congruent to d (the derived key, hence the
authentication tag, does not verify), and returns false with any
corrupted authentication tag. -/
theorem validate_getpidtest_result_correct
    (c : Curve) (msg pt : List Nat) (d k d2 nonce : Nat)
    (ct : GcmCiphertext) (tag tag2 : GcmTag) (ephPub priv : Nat)
    (hn : c.n.Prime) (hk : ¬ c.n ∣ k) (hd2 : d2 % c.n ≠ d % c.n)
    (htag2 : tag2 ≠ (encrypt_ECC c msg (pubOf c d) k nonce).2.1) :
    (validate_getpidtest_result c ct nonce tag ephPub pt priv = true
      ↔ decrypt_ECC c ct nonce tag ephPub priv = some pt)
    ∧ validate_getpidtest_result c (encrypt_ECC c msg (pubOf c d) k nonce).1
        nonce (encrypt_ECC c msg (pubOf c d) k nonce).2.1
        (encrypt_ECC c msg (pubOf c d) k nonce).2.2 msg d = true
    ∧ validate_getpidtest_result c (encrypt_ECC c msg (pubOf c d) k nonce).1
        nonce (encrypt_ECC c msg (pubOf c d) k nonce).2.1
        (encrypt_ECC c msg (pubOf c d) k nonce).2.2 msg d2 = false
    ∧ validate_getpidtest_result c (encrypt_ECC c msg (pubOf c d) k nonce).1
        nonce tag2 (encrypt_ECC c msg (pubOf c d) k nonce).2.2 msg d = false := by
  have henc : encrypt_ECC c msg (pubOf c d) k nonce
      = (⟨k * d % c.n, nonce, msg⟩,
         ⟨k * d % c.n, nonce, ⟨k * d % c.n, nonce, msg⟩⟩,
         k % c.n) := by
    unfold encrypt_ECC encrypt_AES_GCM pubOf scalarMult ecc_point_to_256_bit_key
    rw [Nat.mul_one, Nat.mul_one, mul_mod_mod]
  have hshared : ∀ e : Nat, scalarMult c e (k % c.n) = e * k % c.n := by
    intro e
    unfold scalarMult
    exact mul_mod_mod c e k
  refine ⟨?_, ?_, ?_, ?_⟩
  · unfold validate_getpidtest_result
    cases h : decrypt_ECC c ct nonce tag ephPub priv with
    | none => simp
    | some m => simp
  · rw [henc]
    unfold validate_getpidtest_result decrypt_ECC decrypt_AES_GCM
      ecc_point_to_256_bit_key
    rw [hshared d, Nat.mul_comm d k]
    simp
  · rw [henc]
    unfold validate_getpidtest_result decrypt_ECC decrypt_AES_GCM
      ecc_point_to_256_bit_key
    rw [hshared d2]
    have hne : d2 * k % c.n ≠ k * d % c.n := by
      intro heq
      rw [Nat.mul_comm k d] at heq
      have hco : Nat.Coprime c.n k := (hn.coprime_iff_not_dvd).mpr hk
      have : d2 % c.n = d % c.n :=
        Nat.ModEq.cancel_right_of_coprime hco heq
      exact hd2 this
    have : (⟨k * d % c.n, nonce, ⟨k * d % c.n, nonce, msg⟩⟩ : GcmTag)
        ≠ ⟨d2 * k % c.n, nonce, ⟨k * d % c.n, nonce, msg⟩⟩ := by
      intro h
      exact hne (congrArg GcmTag.key h).symm
    simp [this]
  · rw [henc] at htag2 ⊢
    unfold validate_getpidtest_result decrypt_ECC decrypt_AES_GCM
      ecc_point_to_256_bit_key
    rw [hshared d, Nat.mul_comm d k]
    simp only [GcmTag.mk.injEq]
    rw [if_neg]
    intro h
    exact htag2 (by cases tag2; simp_all)

/-- Witness for C1 on the curve of order 5 with recipient scalar 2,
ephemeral scalar 3, wrong scalar 4 and a tag over a different nonce. -/
theorem validate_getpidtest_result_correct_witness :
    ((validate_getpidtest_result ⟨5⟩ ⟨1, 7, [1, 2]⟩ 7 ⟨1, 7, ⟨1, 7, [1, 2]⟩⟩
        3 [1, 2] 2 = true
      ↔ decrypt_ECC ⟨5⟩ ⟨1, 7, [1, 2]⟩ 7 ⟨1, 7, ⟨1, 7, [1, 2]⟩⟩ 3 2
          = some [1, 2])
    ∧ validate_getpidtest_result ⟨5⟩
        (encrypt_ECC ⟨5⟩ [1, 2] (pubOf ⟨5⟩ 2) 3 7).1 7
        (encrypt_ECC ⟨5⟩ [1, 2] (pubOf ⟨5⟩ 2) 3 7).2.1
        (encrypt_ECC ⟨5⟩ [1, 2] (pubOf ⟨5⟩ 2) 3 7).2.2 [1, 2] 2 = true
    ∧ validate_getpidtest_result ⟨5⟩
        (encrypt_ECC ⟨5⟩ [1, 2] (pubOf ⟨5⟩ 2) 3 7).1 7
        (encrypt_ECC ⟨5⟩ [1, 2] (pubOf ⟨5⟩ 2) 3 7).2.1
        (encrypt_ECC ⟨5⟩ [1, 2] (pubOf ⟨5⟩ 2) 3 7).2.2 [1, 2] 4 = false
    ∧ validate_getpidtest_result ⟨5⟩
        (encrypt_ECC ⟨5⟩ [1, 2] (pubOf ⟨5⟩ 2) 3 7).1 7
        ⟨1, 8, ⟨1, 7, [1, 2]⟩⟩
        (encrypt_ECC ⟨5⟩ [1, 2] (pubOf ⟨5⟩ 2) 3 7).2.2 [1, 2] 2 = false) :=
  validate_getpidtest_result_correct ⟨5⟩ [1, 2] [1, 2] 2 3 4 7
    ⟨1, 7, [1, 2]⟩ ⟨1, 7, ⟨1, 7, [1, 2]⟩⟩ ⟨1, 8, ⟨1, 7, [1, 2]⟩⟩ 3 2
    (by norm_num) (by decide) (by decide) (by decide)

/-- C5: when device_publickey and returnURL are present but the
returnURL value fails validators.url and has no scheme, the validator
answers the local HTTP 400 error (code 14) — whatever the country value
is, supported or not, since the 400 is produced before the country
check is reached. -/
theorem getpid_malformed_returnURL_400 (env : Env)
    (args : List (String × String)) (mandlist : List String)
    (dpk url : String)
    (hdpk : argsGet args "device_publickey" = some dpk)
    (hurl : argsGet args "returnURL" = some url)
    (hvu : env.validators_url url = false)
    (hsch : env.urlparse_scheme url = "") :
    validate_params_getpid_or_mdl env args mandlist = .ok (.httpError 14 400) := by
  have h1 := present_not_mem_missing args mandlist "device_publickey" dpk hdpk
  have h2 := present_not_mem_missing args mandlist "returnURL" url hurl
  unfold validate_params_getpid_or_mdl
  rw [if_neg h1]
  simp only [hdpk]
  rw [if_neg h2]
  simp only [hurl]
  rw [if_pos ⟨hvu, hsch⟩]

/-- Witness for C5: returnURL is the schemeless string not-a-url, the
country XX is unsupported, certificate and device_publickey are well
formed — the outcome is still the local 400 with code 14. -/
theorem getpid_malformed_returnURL_400_witness :
    validate_params_getpid_or_mdl env0
      [("returnURL", "not-a-url"), ("country", "XX"),
       ("certificate", "certok"), ("device_publickey", "pubok")]
      ["device_publickey", "returnURL", "country", "certificate"]
      = .ok (.httpError 14 400) :=
  getpid_malformed_returnURL_400 env0
    [("returnURL", "not-a-url"), ("country", "XX"),
     ("certificate", "certok"), ("device_publickey", "pubok")]
    ["device_publickey", "returnURL", "country", "certificate"]
    "pubok" "not-a-url" rfl rfl rfl rfl

/-- C4: with device_publickey and returnURL present, the returnURL well
formed and the country present but outside the supported set, the
validator produces the redirect directive to the supplied returnURL
with error code 102, even when other mandatory fields are missing; and
conversely the code 101 redirect of the missing-mandatory check is only
ever produced after the country check has passed, that is when country
is itself missing or its value is supported. -/
theorem getpid_unsupported_country_102 :
    (∀ (env : Env) (args : List (String × String)) (mandlist : List String)
        (dpk url ctry : String),
      argsGet args "device_publickey" = some dpk →
      argsGet args "returnURL" = some url →
      env.validators_url url = true →
      argsGet args "country" = some ctry →
      ctry ∉ env.supported_countries →
      validate_params_getpid_or_mdl env args mandlist
        = .ok (.redirect env.version url 102 []))
    ∧ (∀ (env : Env) (args : List (String × String)) (mandlist : List String)
        (v u : String) (e : List (String × String)),
      validate_params_getpid_or_mdl env args mandlist
          = .ok (.redirect v u 101 e) →
      "country" ∈ (validate_mandatory_args args mandlist).2
        ∨ ∃ c2, argsGet args "country" = some c2
            ∧ c2 ∈ env.supported_countries) := by
  constructor
  · intro env args mandlist dpk url ctry hdpk hurl hvu hctry hunsup
    have h1 := present_not_mem_missing args mandlist "device_publickey" dpk hdpk
    have h2 := present_not_mem_missing args mandlist "returnURL" url hurl
    have h3 := present_not_mem_missing args mandlist "country" ctry hctry
    unfold validate_params_getpid_or_mdl
    rw [if_neg h1]
    simp only [hdpk]
    rw [if_neg h2]
    simp only [hurl]
    rw [if_neg (by rintro ⟨hf, -⟩; rw [hvu] at hf; exact Bool.noConfusion hf)]
    unfold getpid_step_country
    rw [if_neg h3]
    simp only [hctry]
    rw [if_neg hunsup]
  · intro env args mandlist v u e h
    unfold validate_params_getpid_or_mdl at h
    by_cases h1 : "device_publickey" ∈ (validate_mandatory_args args mandlist).2
    · rw [if_pos h1] at h; simp at h
    rw [if_neg h1] at h
    cases hdpk : argsGet args "device_publickey" with
    | none => simp only [hdpk] at h; simp at h
    | some dpk =>
      simp only [hdpk] at h
      by_cases h2 : "returnURL" ∈ (validate_mandatory_args args mandlist).2
      · rw [if_pos h2] at h; simp at h
      rw [if_neg h2] at h
      cases hurl : argsGet args "returnURL" with
      | none => simp only [hurl] at h; simp at h
      | some url =>
        simp only [hurl] at h
        by_cases h3 : env.validators_url url = false
            ∧ env.urlparse_scheme url = ""
        · rw [if_pos h3] at h; simp at h
        rw [if_neg h3] at h
        unfold getpid_step_country at h
        by_cases h4 : "country" ∈ (validate_mandatory_args args mandlist).2
        · exact Or.inl h4
        rw [if_neg h4] at h
        cases hctry : argsGet args "country" with
        | none => simp only [hctry] at h; simp at h
        | some ctry =>
          simp only [hctry] at h
          by_cases h5 : ctry ∈ env.supported_countries
          · exact Or.inr ⟨ctry, rfl, h5⟩
          · rw [if_neg h5] at h; simp at h

/-- Witness for C4: the unsupported country ZZ produces the redirect
with code 102 to the original return URL, even with the mandatory field
certificate entirely absent; and a run that does produce the code 101
redirect (country PT supported, certificate absent) indeed had a
passing country check. -/
theorem getpid_unsupported_country_102_witness :
    validate_params_getpid_or_mdl env0
      [("device_publickey", "pubok"),
       ("returnURL", "https://wallet.example.org/cb"), ("country", "ZZ")]
      ["device_publickey", "returnURL", "country", "certificate"]
      = .ok (.redirect "0.3" "https://wallet.example.org/cb" 102 [])
    ∧ ("country" ∈ (validate_mandatory_args
          [("device_publickey", "pubok"),
           ("returnURL", "https://wallet.example.org/cb"), ("country", "PT")]
          ["device_publickey", "returnURL", "country", "certificate"]).2
        ∨ ∃ c2, argsGet
            [("device_publickey", "pubok"),
             ("returnURL", "https://wallet.example.org/cb"), ("country", "PT")]
            "country" = some c2 ∧ c2 ∈ env0.supported_countries) :=
  ⟨getpid_unsupported_country_102.1 env0
    [("device_publickey", "pubok"),
     ("returnURL", "https://wallet.example.org/cb"), ("country", "ZZ")]
    ["device_publickey", "returnURL", "country", "certificate"]
    "pubok" "https://wallet.example.org/cb" "ZZ" rfl rfl rfl rfl (by decide),
   getpid_unsupported_country_102.2 env0
    [("device_publickey", "pubok"),
     ("returnURL", "https://wallet.example.org/cb"), ("country", "PT")]
    ["device_publickey", "returnURL", "country", "certificate"]
    "0.3" "https://wallet.example.org/cb" [] (by rfl)⟩

/-- C8: when every earlier check passes (device_publickey, returnURL
and a supported country present, returnURL well formed, no mandatory
field missing, certificate base64url-decoded) and validate_cert_algo
rejects the decoded certificate, the validator produces the redirect to
the returnURL with error code 104 whose error_str detail names both the
rejected algorithm and the rejected curve. -/
theorem getpid_bad_cert_algo_104 (env : Env)
    (args : List (String × String)) (mandlist : List String)
    (dpk url ctry certArg : String) (certBytes : List Nat) (a cv : String)
    (hdpk : argsGet args "device_publickey" = some dpk)
    (hurl : argsGet args "returnURL" = some url)
    (hvu : env.validators_url url = true)
    (hctry : argsGet args "country" = some ctry)
    (hsup : ctry ∈ env.supported_countries)
    (hb : (validate_mandatory_args args mandlist).1 = true)
    (hcert : argsGet args "certificate" = some certArg)
    (hdec : env.b64decode certArg = .ok certBytes)
    (halgo : validate_cert_algo env.certParse certBytes env.cert_algo_list
      = (false, a, cv)) :
    validate_params_getpid_or_mdl env args mandlist
      = .ok (.redirect env.version url 104
          [("error_str", "Certificate algorithm (" ++ a ++ ") or curve ("
            ++ cv ++ ") not supported.")]) := by
  have h1 := present_not_mem_missing args mandlist "device_publickey" dpk hdpk
  have h2 := present_not_mem_missing args mandlist "returnURL" url hurl
  have h3 := present_not_mem_missing args mandlist "country" ctry hctry
  unfold validate_params_getpid_or_mdl
  rw [if_neg h1]
  simp only [hdpk]
  rw [if_neg h2]
  simp only [hurl]
  rw [if_neg (by rintro ⟨hf, -⟩; rw [hvu] at hf; exact Bool.noConfusion hf)]
  unfold getpid_step_country
  rw [if_neg h3]
  simp only [hctry]
  rw [if_pos hsup]
  unfold getpid_step_missing
  rw [if_neg (by rw [hb]; exact fun hf => Bool.noConfusion hf)]
  unfold getpid_step_cert
  simp only [hcert, hdec, halgo]
  simp

/-- Witness for C8: the certificate blob [2] parses to the allow-listed
algorithm ecdsa-with-SHA256 but the curve secp521r1, which is only
allowed under ecdsa-with-SHA384 — the outcome is the 104 redirect whose
detail names both. -/
theorem getpid_bad_cert_algo_104_witness :
    validate_params_getpid_or_mdl env0
      [("device_publickey", "pubok"),
       ("returnURL", "https://wallet.example.org/cb"), ("country", "PT"),
       ("certificate", "certbad")]
      ["device_publickey", "returnURL", "country", "certificate"]
      = .ok (.redirect "0.3" "https://wallet.example.org/cb" 104
          [("error_str", "Certificate algorithm (" ++ "ecdsa-with-SHA256"
            ++ ") or curve (" ++ "secp521r1" ++ ") not supported.")]) :=
  getpid_bad_cert_algo_104 env0
    [("device_publickey", "pubok"),
     ("returnURL", "https://wallet.example.org/cb"), ("country", "PT"),
     ("certificate", "certbad")]
    ["device_publickey", "returnURL", "country", "certificate"]
    "pubok" "https://wallet.example.org/cb" "PT" "certbad" [2]
    "ecdsa-with-SHA256" "secp521r1"
    rfl rfl rfl rfl (by decide) (by decide) rfl rfl rfl

/-- With device_publickey outside the missing list, the guarded final
step equals the unguarded one. -/
theorem getpid_step_pubkey_eq_unguarded (env : Env)
    (args : List (String × String)) (l : List String)
    (hl : "device_publickey" ∉ l) :
    getpid_step_pubkey env args l = getpid_step_pubkey_unguarded env args := by
  unfold getpid_step_pubkey getpid_step_pubkey_unguarded
  rw [if_neg hl]

/-- With device_publickey outside the missing list, the certificate
step continues identically into the unguarded chain. -/
theorem getpid_step_cert_eq_unguarded (env : Env)
    (args : List (String × String)) (l : List String) (url : String)
    (hl : "device_publickey" ∉ l) :
    getpid_step_cert env args l url = getpid_step_cert_unguarded env args url := by
  unfold getpid_step_cert getpid_step_cert_unguarded
  repeat' split
  any_goals rfl
  all_goals exact getpid_step_pubkey_eq_unguarded env args l hl

/-- With device_publickey outside the missing list, the
missing-mandatory step continues identically into the unguarded chain. -/
theorem getpid_step_missing_eq_unguarded (env : Env)
    (args : List (String × String)) (b : Bool) (l : List String) (url : String)
    (hl : "device_publickey" ∉ l) :
    getpid_step_missing env args b l url
      = getpid_step_missing_unguarded env args b url := by
  unfold getpid_step_missing getpid_step_missing_unguarded
  by_cases hb : b = false
  · simp [hb]
  · simp [hb, getpid_step_cert_eq_unguarded env args l url hl]

/-- With device_publickey outside the missing list, the country step
continues identically into the unguarded chain. -/
theorem getpid_step_country_eq_unguarded (env : Env)
    (args : List (String × String)) (b : Bool) (l : List String) (url : String)
    (hl : "device_publickey" ∉ l) :
    getpid_step_country env args b l url
      = getpid_step_country_unguarded env args b l url := by
  unfold getpid_step_country getpid_step_country_unguarded
  by_cases hc : "country" ∈ l
  · simp [hc, getpid_step_missing_eq_unguarded env args b l url hl]
  · rw [if_neg hc, if_neg hc]
    cases argsGet args "country" with
    | none => rfl
    | some ctry =>
      by_cases hs : ctry ∈ env.supported_countries
      · simp [hs, getpid_step_missing_eq_unguarded env args b l url hl]
      · simp [hs]

/-- Removing the line-177 guard does not change the validator. -/
theorem validate_params_eq_unguarded (env : Env)
    (args : List (String × String)) (mandlist : List String) :
    validate_params_getpid_or_mdl env args mandlist
      = validate_params_getpid_or_mdl_unguarded env args mandlist := by
  unfold validate_params_getpid_or_mdl validate_params_getpid_or_mdl_unguarded
  by_cases h1 : "device_publickey" ∈ (validate_mandatory_args args mandlist).2
  · rw [if_pos h1, if_pos h1]
  · rw [if_neg h1, if_neg h1]
    split
    · rfl
    · by_cases h2 : "returnURL" ∈ (validate_mandatory_args args mandlist).2
      · rw [if_pos h2, if_pos h2]
      · rw [if_neg h2, if_neg h2]
        split
        · rfl
        · split
          · rfl
          · exact getpid_step_country_eq_unguarded env args
              (validate_mandatory_args args mandlist).1
              (validate_mandatory_args args mandlist).2 _ h1

/-- An unguarded final step that declares the arguments valid has run
the PEM format check on the decoded device public key and seen it
succeed. -/
theorem getpid_step_pubkey_unguarded_valid (env : Env)
    (args : List (String × String))
    (h : getpid_step_pubkey_unguarded env args = .ok .valid) :
    ∃ dpk bytes, argsGet args "device_publickey" = some dpk
      ∧ env.b64decode dpk = .ok bytes
      ∧ is_valid_pem_public_key env.load_pem_public_key bytes = true := by
  unfold getpid_step_pubkey_unguarded at h
  cases hdpk : argsGet args "device_publickey" with
  | none => simp only [hdpk] at h; simp at h
  | some dpk =>
    simp only [hdpk] at h
    cases hdec : env.b64decode dpk with
    | error e => simp only [hdec] at h; simp at h
    | ok bytes =>
      simp only [hdec] at h
      by_cases hpem : is_valid_pem_public_key env.load_pem_public_key bytes
          = false
      · rw [if_pos hpem] at h; simp at h
      · exact ⟨dpk, bytes, rfl, hdec, by simpa using hpem⟩

/-- A valid outcome of the unguarded certificate step comes from the
final step declaring the arguments valid. -/
theorem getpid_step_cert_unguarded_valid (env : Env)
    (args : List (String × String)) (url : String)
    (h : getpid_step_cert_unguarded env args url = .ok .valid) :
    getpid_step_pubkey_unguarded env args = .ok .valid := by
  unfold getpid_step_cert_unguarded at h
  cases hc : argsGet args "certificate" with
  | none => simp only [hc] at h; simp at h
  | some certArg =>
    simp only [hc] at h
    cases hd : env.b64decode certArg with
    | error e => simp only [hd] at h; simp at h
    | ok certificate =>
      simp only [hd] at h
      by_cases hv : (validate_cert_algo env.certParse certificate
          env.cert_algo_list).1 = false
      · rw [if_pos hv] at h; simp at h
      · rw [if_neg hv] at h; exact h

/-- A valid outcome of the unguarded missing-mandatory step comes from
the final step declaring the arguments valid. -/
theorem getpid_step_missing_unguarded_valid (env : Env)
    (args : List (String × String)) (b : Bool) (url : String)
    (h : getpid_step_missing_unguarded env args b url = .ok .valid) :
    getpid_step_pubkey_unguarded env args = .ok .valid := by
  unfold getpid_step_missing_unguarded at h
  by_cases hb : b = false
  · rw [if_pos hb] at h; simp at h
  · rw [if_neg hb] at h
    exact getpid_step_cert_unguarded_valid env args url h

/-- A valid outcome of the unguarded country step comes from the final
step declaring the arguments valid. -/
theorem getpid_step_country_unguarded_valid (env : Env)
    (args : List (String × String)) (b : Bool) (l : List String) (url : String)
    (h : getpid_step_country_unguarded env args b l url = .ok .valid) :
    getpid_step_pubkey_unguarded env args = .ok .valid := by
  unfold getpid_step_country_unguarded at h
  by_cases hc : "country" ∈ l
  · rw [if_pos hc] at h
    exact getpid_step_missing_unguarded_valid env args b url h
  · rw [if_neg hc] at h
    cases hctry : argsGet args "country" with
    | none => simp only [hctry] at h; simp at h
    | some ctry =>
      simp only [hctry] at h
      by_cases hs : ctry ∈ env.supported_countries
      · rw [if_pos hs] at h
        exact getpid_step_missing_unguarded_valid env args b url h
      · rw [if_neg hs] at h; simp at h

/-- C10: whenever control reaches the public-key-format check of the
getpid/getmdl validator, device_publickey is no longer in the missing
list — the validator already returned the local 400 with code 15
otherwise — so the line-177 guard is always true there: removing it
changes no outcome on any input, and every run that ends in the valid
sentinel has actually executed the PEM format check, successfully, on
the decoded device public key. -/
theorem getpid_pubkey_guard_redundant :
    (∀ (env : Env) (args : List (String × String)) (mandlist : List String),
      validate_params_getpid_or_mdl env args mandlist
        = validate_params_getpid_or_mdl_unguarded env args mandlist)
    ∧ (∀ (env : Env) (args : List (String × String)) (mandlist : List String),
      validate_params_getpid_or_mdl env args mandlist = .ok .valid →
      ∃ dpk bytes, argsGet args "device_publickey" = some dpk
        ∧ env.b64decode dpk = .ok bytes
        ∧ is_valid_pem_public_key env.load_pem_public_key bytes = true) := by
  constructor
  · exact validate_params_eq_unguarded
  · intro env args mandlist h
    rw [validate_params_eq_unguarded] at h
    unfold validate_params_getpid_or_mdl_unguarded at h
    by_cases h1 : "device_publickey" ∈ (validate_mandatory_args args mandlist).2
    · rw [if_pos h1] at h; simp at h
    rw [if_neg h1] at h
    cases hdpk : argsGet args "device_publickey" with
    | none => simp only [hdpk] at h; simp at h
    | some dpk =>
      simp only [hdpk] at h
      by_cases h2 : "returnURL" ∈ (validate_mandatory_args args mandlist).2
      · rw [if_pos h2] at h; simp at h
      rw [if_neg h2] at h
      cases hurl : argsGet args "returnURL" with
      | none => simp only [hurl] at h; simp at h
      | some url =>
        simp only [hurl] at h
        by_cases h3 : env.validators_url url = false
            ∧ env.urlparse_scheme url = ""
        · rw [if_pos h3] at h; simp at h
        rw [if_neg h3] at h
        have hv := getpid_step_country_unguarded_valid env args
          (validate_mandatory_args args mandlist).1
          (validate_mandatory_args args mandlist).2 url h
        have := getpid_step_pubkey_unguarded_valid env args hv
        obtain ⟨dpk2, bytes, hdpk2, hdec, hpem⟩ := this
        exact ⟨dpk2, bytes, hdpk ▸ hdpk2, hdec, hpem⟩

/-- Witness for C10: on a fully well-formed request the two validators
agree, and the valid outcome certifies the successful PEM check of the
decoded device public key. -/
theorem getpid_pubkey_guard_redundant_witness :
    validate_params_getpid_or_mdl env0
      [("device_publickey", "pubok"),
       ("returnURL", "https://wallet.example.org/cb"), ("country", "PT"),
       ("certificate", "certok")]
      ["device_publickey", "returnURL", "country", "certificate"]
      = validate_params_getpid_or_mdl_unguarded env0
          [("device_publickey", "pubok"),
           ("returnURL", "https://wallet.example.org/cb"), ("country", "PT"),
           ("certificate", "certok")]
          ["device_publickey", "returnURL", "country", "certificate"]
    ∧ ∃ dpk bytes,
        argsGet
          [("device_publickey", "pubok"),
           ("returnURL", "https://wallet.example.org/cb"), ("country", "PT"),
           ("certificate", "certok")] "device_publickey" = some dpk
        ∧ env0.b64decode dpk = .ok bytes
        ∧ is_valid_pem_public_key env0.load_pem_public_key bytes = true :=
  ⟨getpid_pubkey_guard_redundant.1 env0
    [("device_publickey", "pubok"),
     ("returnURL", "https://wallet.example.org/cb"), ("country", "PT"),
     ("certificate", "certok")]
    ["device_publickey", "returnURL", "country", "certificate"],
   getpid_pubkey_guard_redundant.2 env0
    [("device_publickey", "pubok"),
     ("returnURL", "https://wallet.example.org/cb"), ("country", "PT"),
     ("certificate", "certok")]
    ["device_publickey", "returnURL", "country", "certificate"] (by rfl)⟩

/-- C9: in the show validator, when every mandatory field is present
(so the broad flag is true and nothing is missing) but the error value
does not parse as an integer, the int conversion raises an uncaught
ValueError instead of returning an outcome; and when the error value
parses to a non-zero integer while error_str is absent, the subscript
access raises an uncaught KeyError instead of returning an outcome. -/
theorem showpid_uncaught_exceptions :
    (∀ (args : List (String × String)) (mandlist : List String) (ev : String),
      (validate_mandatory_args args mandlist).1 = true →
      argsGet args "error" = some ev →
      python_int ev = none →
      validate_params_showpid_or_mdl args mandlist = .error (.valueError ev))
    ∧ (∀ (args : List (String × String)) (mandlist : List String)
        (ev : String) (n : Int),
      (validate_mandatory_args args mandlist).1 = true →
      argsGet args "error" = some ev →
      python_int ev = some n →
      n ≠ 0 →
      argsGet args "error_str" = none →
      validate_params_showpid_or_mdl args mandlist
        = .error (.keyError "error_str")) := by
  constructor
  · intro args mandlist ev hb herr hint
    have hl := flag_true_missing_nil args mandlist hb
    unfold validate_params_showpid_or_mdl
    rw [if_neg (by rw [hb, hl]; rintro (hf | hf); exact Bool.noConfusion hf; simp at hf)]
    simp only [herr, hint]
  · intro args mandlist ev n hb herr hint hn hes
    have hl := flag_true_missing_nil args mandlist hb
    unfold validate_params_showpid_or_mdl
    rw [if_neg (by rw [hb, hl]; rintro (hf | hf); exact Bool.noConfusion hf; simp at hf)]
    simp only [herr, hint]
    rw [if_pos hn]
    simp only [hes]

/-- Witness for C9: with error the only mandatory field, the value abc
raises ValueError; the value 5 with error_str absent raises KeyError. -/
theorem showpid_uncaught_exceptions_witness :
    validate_params_showpid_or_mdl [("error", "abc")] ["error"]
      = .error (.valueError "abc")
    ∧ validate_params_showpid_or_mdl [("error", "5")] ["error"]
      = .error (.keyError "error_str") :=
  ⟨showpid_uncaught_exceptions.1 [("error", "abc")] ["error"] "abc"
    rfl rfl (by decide),
   showpid_uncaught_exceptions.2 [("error", "5")] ["error"] "5" 5
    rfl rfl (by decide) (by decide) rfl⟩

end BootValidate
